import Mathlib

/-!
Verification of the service-f telemetry pipeline (pure C gRPC service with
hand-written OTLP exporters).  Shallow embedding of the C sources:

* `src/services/service-f/src/otlp_exporter.c`          (span exporter)
* `src/services/service-f/src/otlp_log_exporter.c`      (log exporter)
* `src/services/service-f/src/otlp_metrics_exporter.c`  (metrics exporter)
* `src/services/service-f/src/main.c`                   (server loop, metrics tick)

C strings are modelled as `List Char`, possibly-NULL strings as
`Option (List Char)`, raw byte buffers as `List ℕ` (each entry < 256),
`double` values as `ℚ`, and the process-wide `rand()` stream as a function
`ℕ → ℕ` giving the successive values drawn.
-/

namespace ServiceF

/-! ## IdentifierCodec: `hex_to_bytes` (otlp_exporter.c lines 84-93, identical
copy in otlp_log_exporter.c lines 83-92) and hex rendering -/

/-- Value of one hexadecimal digit character, as accepted by `sscanf` with a
`%x` conversion (decimal digits plus lowercase and uppercase `a`-`f`);
`none` for non-hex-digit characters. -/
def hexDigitVal (c : Char) : Option ℕ :=
  if '0' ≤ c ∧ c ≤ '9' then some (c.toNat - 48)
  else if 'a' ≤ c ∧ c ≤ 'f' then some (c.toNat - 87)
  else if 'A' ≤ c ∧ c ≤ 'F' then some (c.toNat - 55)
  else none

/-- The lowercase hex digit table `"0123456789abcdef"` used by
`generate_trace_id` / `generate_span_id` in main.c, as an indexing function
(character codes 48-57 are the decimal digits, 97-102 are `a`-`f`; indices
past 15 never occur). -/
def hexChar (n : ℕ) : Char :=
  Char.ofNat (if n < 10 then 48 + n else if n < 16 then 87 + n else 48)

/-- One `sscanf(p, "%2x", &val)` step on two consecutive characters of a
hex-digit string: fails when the first character is not a hex digit, reads a
single digit when the second is not, otherwise reads both.  (The whitespace
and `0x`-prefix idiosyncrasies of `%x` never arise on the identifier strings
this codec is applied to.) -/
def scan2x (c0 c1 : Char) : Option ℕ :=
  match hexDigitVal c0 with
  | none => none
  | some h =>
    match hexDigitVal c1 with
    | none => some h
    | some l => some (16 * h + l)

/-- `hex_to_bytes(hex, bytes, len)` from otlp_exporter.c: converts `len`
bytes by scanning `%2x` at offsets `0, 2, 4, …` of `hex`.  Returns `none`
where the C function returns `-1` (a scan failed, including running past the
end of the string). -/
def hex_to_bytes : List Char → ℕ → Option (List ℕ)
  | _, 0 => some []
  | c0 :: c1 :: rest, n + 1 =>
    match scan2x c0 c1 with
    | none => none
    | some b => (hex_to_bytes rest n).map (b :: ·)
  | [c0], n + 1 =>
    match hexDigitVal c0 with
    | none => none
    | some h => if n = 0 then some [h] else none
  | [], _ + 1 => none

/-- Lowercase hexadecimal rendering of a byte buffer, two digits per byte.
This is the rendering direction of the spec's IdentifierCodec round-trip
property (the C sources only ever go from hex text to bytes). -/
def bytes_to_hex (bs : List ℕ) : List Char :=
  bs.flatMap (fun b => [hexChar (b / 16), hexChar (b % 16)])

/-- The sixteen lowercase hex digit characters (the `hexChar` table). -/
def lowerHexDigits : List Char := (List.range 16).map hexChar

/-- A character is a lowercase hexadecimal digit. -/
def IsLowerHex (c : Char) : Prop := c ∈ lowerHexDigits

instance (c : Char) : Decidable (IsLowerHex c) := by
  unfold IsLowerHex; infer_instance

theorem hexDigitVal_of_lower {c : Char} (h : IsLowerHex c) :
    ∃ d, hexDigitVal c = some d ∧ d < 16 ∧ hexChar d = c := by
  simp only [IsLowerHex, lowerHexDigits, List.mem_map, List.mem_range] at h
  obtain ⟨d, hd, rfl⟩ := h
  refine ⟨d, ?_, hd, rfl⟩
  interval_cases d <;> decide

theorem roundtrip_aux (n : ℕ) (s : List Char) (hlen : s.length = 2 * n)
    (hhex : ∀ c ∈ s, IsLowerHex c) :
    ∃ bs, hex_to_bytes s n = some bs ∧ bytes_to_hex bs = s := by
  induction n generalizing s with
  | zero =>
    have : s = [] := List.length_eq_zero.mp (by omega)
    subst this
    exact ⟨[], rfl, rfl⟩
  | succ m ih =>
    match s with
    | [] => simp at hlen
    | [c] => simp at hlen; omega
    | c0 :: c1 :: rest =>
      obtain ⟨d0, hd0, hd0lt, hc0⟩ := hexDigitVal_of_lower (hhex c0 (by simp))
      obtain ⟨d1, hd1, hd1lt, hc1⟩ := hexDigitVal_of_lower (hhex c1 (by simp))
      have hrest : rest.length = 2 * m := by
        simp only [List.length_cons] at hlen; omega
      obtain ⟨bs, hbs, hren⟩ := ih rest hrest (fun c hc => hhex c (by simp [hc]))
      refine ⟨(16 * d0 + d1) :: bs, ?_, ?_⟩
      · simp only [hex_to_bytes, scan2x, hd0, hd1, hbs, Option.map_some']
      · have hdiv : (16 * d0 + d1) / 16 = d0 := by omega
        have hmod : (16 * d0 + d1) % 16 = d1 := by omega
        simp only [bytes_to_hex, List.flatMap_cons, hdiv, hmod, hc0, hc1] at *
        simpa [bytes_to_hex] using hren

/-- C4: for every 32-character lowercase-hex string, `hex_to_bytes` succeeds
with 16 bytes and rendering those bytes back as lowercase hex recovers the
original string (the hex→bytes→hex round trip is the identity on valid
lowercase trace IDs). -/
theorem c4_hex_roundtrip (s : List Char) (hlen : s.length = 32)
    (hhex : ∀ c ∈ s, IsLowerHex c) :
    ∃ bs, hex_to_bytes s 16 = some bs ∧ bytes_to_hex bs = s :=
  roundtrip_aux 16 s (by omega) hhex

/-- Witness for C4 at the concrete trace ID `"00112233445566778899aabbccddeeff"`. -/
theorem c4_hex_roundtrip_witness :
    ∃ bs,
      hex_to_bytes
        ['0','0','1','1','2','2','3','3','4','4','5','5','6','6','7','7',
         '8','8','9','9','a','a','b','b','c','c','d','d','e','e','f','f'] 16 =
        some bs ∧
      bytes_to_hex bs =
        ['0','0','1','1','2','2','3','3','4','4','5','5','6','6','7','7',
         '8','8','9','9','a','a','b','b','c','c','d','d','e','e','f','f'] :=
  c4_hex_roundtrip _ (by decide) (by decide)

/-! ## Endpoint parsing: `parse_endpoint` (otlp_exporter.c lines 56-81, with
identical copies in otlp_log_exporter.c lines 55-80 and
otlp_metrics_exporter.c lines 42-64) -/

/-- The scheme-stripping step of `parse_endpoint`: skip a leading `http://`
or `https://` prefix. -/
def stripScheme (ep : List Char) : List Char :=
  if ['h','t','t','p',':','/','/'].isPrefixOf ep then ep.drop 7
  else if ['h','t','t','p','s',':','/','/'].isPrefixOf ep then ep.drop 8
  else ep

/-- `strchr(ptr, ':')`-based split: `some (before, after)` around the FIRST
colon of the list, `none` when the list has no colon. -/
def splitAtFirstColon : List Char → Option (List Char × List Char)
  | [] => none
  | c :: t =>
    if c = ':' then some ([], t)
    else (splitAtFirstColon t).map (fun p => (c :: p.1, p.2))

/-- `parse_endpoint(endpoint, &host, &port)` from otlp_exporter.c: strips an
`http://`/`https://` prefix, then splits the remainder at its first colon
(`strchr`) into `(host, port)`; when no colon is present the host is the
whole remainder and the port defaults to `"4317"`. -/
def parse_endpoint (ep : List Char) : List Char × List Char :=
  let r := stripScheme ep
  match splitAtFirstColon r with
  | some (h, p) => (h, p)
  | none => (r, ['4','3','1','7'])

/-- Last-colon split, as the spec describes the parser ("splitting on the
last colon").  Second definition for the refinement comparison only:
`some (before, after)` around the LAST colon of the list. -/
def splitAtLastColonSpec : List Char → Option (List Char × List Char)
  | [] => none
  | c :: t =>
    match splitAtLastColonSpec t with
    | some (h, p) => some (c :: h, p)
    | none => if c = ':' then some ([], t) else none

/-- Endpoint parsing as the spec words it (split on the last colon);
comparison definition for C2, not code from the repository. -/
def parse_endpoint_spec (ep : List Char) : List Char × List Char :=
  let r := stripScheme ep
  match splitAtLastColonSpec r with
  | some (h, p) => (h, p)
  | none => (r, ['4','3','1','7'])

theorem splitAtFirstColon_of_no_colon {l : List Char} (h : ':' ∉ l) :
    splitAtFirstColon l = none := by
  induction l with
  | nil => rfl
  | cons c t ih =>
    have hc : c ≠ ':' := fun hc => h (hc ▸ List.mem_cons_self c t)
    simp only [splitAtFirstColon, if_neg hc, ih (fun ht => h (List.mem_cons_of_mem c ht)),
      Option.map_none']

theorem splitAtFirstColon_append {pre post : List Char} (h : ':' ∉ pre) :
    splitAtFirstColon (pre ++ ':' :: post) = some (pre, post) := by
  induction pre with
  | nil => simp [splitAtFirstColon]
  | cons c t ih =>
    have hc : c ≠ ':' := fun hc => h (hc ▸ List.mem_cons_self c t)
    have ht := ih (fun ht => h (List.mem_cons_of_mem c ht))
    simp only [List.cons_append, splitAtFirstColon, if_neg hc, List.append_eq, ht,
      Option.map_some']

/-- C2 counterexample: on `"http://a:1:2"` the code splits at the FIRST colon
of the remainder (host `"a"`, port `"1:2"`), not at the last colon (host
`"a:1"`, port `"2"`) as the claim states. -/
theorem c2_counterexample :
    parse_endpoint ['h','t','t','p',':','/','/','a',':','1',':','2'] =
      (['a'], ['1',':','2']) ∧
    parse_endpoint_spec ['h','t','t','p',':','/','/','a',':','1',':','2'] =
      (['a',':','1'], ['2']) ∧
    parse_endpoint ['h','t','t','p',':','/','/','a',':','1',':','2'] ≠
      parse_endpoint_spec ['h','t','t','p',':','/','/','a',':','1',':','2'] := by
  refine ⟨by decide, by decide, by decide⟩

/-- C2 amended: the parser strips a leading `http://`/`https://` prefix and
splits the remainder on its FIRST colon, taking the text before that colon
as host and everything after it as port; with no colon in the remainder the
host is the whole remainder and the port defaults to `"4317"`. -/
theorem c2_parse_endpoint_first_colon (pre post : List Char) (hpre : ':' ∉ pre) :
    parse_endpoint (['h','t','t','p',':','/','/'] ++ (pre ++ ':' :: post)) = (pre, post) ∧
    parse_endpoint (['h','t','t','p','s',':','/','/'] ++ (pre ++ ':' :: post)) = (pre, post) ∧
    parse_endpoint (['h','t','t','p',':','/','/'] ++ pre) = (pre, ['4','3','1','7']) := by
  have hstrip1 : stripScheme (['h','t','t','p',':','/','/'] ++ (pre ++ ':' :: post)) =
      pre ++ ':' :: post := by
    simp [stripScheme, List.isPrefixOf_iff_prefix]
  have hs : ¬ (['h','t','t','p',':','/','/'].isPrefixOf
      (['h','t','t','p','s',':','/','/'] ++ (pre ++ ':' :: post)) = true) := by
    simp [List.isPrefixOf_iff_prefix, List.prefix_iff_eq_take]
  have hs2 : (['h','t','t','p','s',':','/','/'].isPrefixOf
      (['h','t','t','p','s',':','/','/'] ++ (pre ++ ':' :: post))) = true := by
    simp [List.isPrefixOf_iff_prefix]
  have hstrip2 : stripScheme (['h','t','t','p','s',':','/','/'] ++ (pre ++ ':' :: post)) =
      pre ++ ':' :: post := by
    simp only [stripScheme, hs, if_false, hs2, if_true]
    simp
  have hstrip3 : stripScheme (['h','t','t','p',':','/','/'] ++ pre) = pre := by
    simp [stripScheme, List.isPrefixOf_iff_prefix]
  refine ⟨?_, ?_, ?_⟩
  · simp only [parse_endpoint, hstrip1, splitAtFirstColon_append hpre]
  · simp only [parse_endpoint, hstrip2, splitAtFirstColon_append hpre]
  · simp only [parse_endpoint, hstrip3, splitAtFirstColon_of_no_colon hpre]

/-- Witness for the amended C2 at host `"ab"`, port `"12"`. -/
theorem c2_parse_endpoint_first_colon_witness :
    parse_endpoint ['h','t','t','p',':','/','/','a','b',':','1','2'] = (['a','b'], ['1','2']) ∧
    parse_endpoint ['h','t','t','p','s',':','/','/','a','b',':','1','2'] =
      (['a','b'], ['1','2']) ∧
    parse_endpoint ['h','t','t','p',':','/','/','a','b'] = (['a','b'], ['4','3','1','7']) :=
  c2_parse_endpoint_first_colon ['a','b'] ['1','2'] (by decide)

/-! ## TraceContextExtractor: `extract_trace_context` and `generate_trace_id`
(main.c lines 171-177 and 196-226) -/

/-- The recognized trace-context metadata key, `"traceparent"`. -/
def traceparentKey : List Char := ['t','r','a','c','e','p','a','r','e','n','t']

/-- The metadata scan loop of `extract_trace_context` (main.c lines 202-220):
walks the metadata entries in order; every entry whose key is `traceparent`
and whose value has length at least 55 overwrites the accumulated
`(trace_id, parent_span_id)` pair with the 32 characters at offset 3 and the
16 characters at offset 36 of its value. -/
def scanTraceparent :
    List (List Char × List Char) → List Char × List Char → List Char × List Char
  | [], acc => acc
  | (k, v) :: rest, acc =>
    scanTraceparent rest
      (if k = traceparentKey then
        (if 55 ≤ v.length then ((v.drop 3).take 32, (v.drop 36).take 16) else acc)
      else acc)

/-- `generate_trace_id(out, len)` from main.c: fills `min (len-1) 32`
characters drawn as `hex[rand() % 16]` from the lowercase hex table.  The
`rand()` stream is modelled by the function `rand` giving its successive
values. -/
def generate_trace_id (rand : ℕ → ℕ) (len : ℕ) : List Char :=
  (List.range (min (len - 1) 32)).map (fun i => hexChar (rand i % 16))

/-- `extract_trace_context(metadata, trace_id, 64, parent_span_id, 32)` from
main.c: runs the metadata scan starting from empty strings, then generates a
fresh random trace ID (buffer length 64, hence 32 characters) when the scan
left the trace ID empty. -/
def extract_trace_context (md : List (List Char × List Char)) (rand : ℕ → ℕ) :
    List Char × List Char :=
  if (scanTraceparent md ([], [])).1 = [] then
    (generate_trace_id rand 64, (scanTraceparent md ([], [])).2)
  else scanTraceparent md ([], [])

theorem scanTraceparent_of_all_short {md : List (List Char × List Char)}
    (h : ∀ v, (traceparentKey, v) ∈ md → v.length < 55) (acc : List Char × List Char) :
    scanTraceparent md acc = acc := by
  induction md generalizing acc with
  | nil => rfl
  | cons kv rest ih =>
    obtain ⟨k, v⟩ := kv
    have hrest : ∀ v', (traceparentKey, v') ∈ rest → v'.length < 55 :=
      fun v' hv' => h v' (List.mem_cons_of_mem _ hv')
    by_cases hk : k = traceparentKey
    · subst hk
      have hv : v.length < 55 := h v (List.mem_cons_self _ _)
      simp only [scanTraceparent, if_pos rfl, if_neg (by omega : ¬ 55 ≤ v.length)]
      exact ih hrest acc
    · simp only [scanTraceparent, if_neg hk]
      exact ih hrest acc

theorem scanTraceparent_of_some_long {md : List (List Char × List Char)}
    (h : ∃ v, (traceparentKey, v) ∈ md ∧ 55 ≤ v.length) :
    ∃ v, (traceparentKey, v) ∈ md ∧ 55 ≤ v.length ∧
      ∀ acc, scanTraceparent md acc = ((v.drop 3).take 32, (v.drop 36).take 16) := by
  induction md with
  | nil => obtain ⟨v, hv, _⟩ := h; simp at hv
  | cons kv rest ih =>
    obtain ⟨k, v⟩ := kv
    by_cases hr : ∃ v', (traceparentKey, v') ∈ rest ∧ 55 ≤ v'.length
    · obtain ⟨v', hmem, hlen, heq⟩ := ih hr
      refine ⟨v', List.mem_cons_of_mem _ hmem, hlen, fun acc => ?_⟩
      simp only [scanTraceparent]
      exact heq _
    · push_neg at hr
      obtain ⟨v₀, hv₀, hlen₀⟩ := h
      rcases List.mem_cons.mp hv₀ with heq | hmem
      · injection heq with hk hv
        subst hv
        refine ⟨v₀, ?_, hlen₀, fun acc => ?_⟩
        · rw [← hk]; exact List.mem_cons_self _ _
        · rw [← hk]
          simp only [scanTraceparent, if_pos rfl, if_pos hlen₀]
          exact scanTraceparent_of_all_short (fun v' hv' => hr v' hv') _
      · exact absurd hlen₀ (not_le.mpr (hr v₀ hmem))

theorem hexChar_isLowerHex : ∀ k, k < 16 → IsLowerHex (hexChar k) :=
  fun k hk =>
    List.mem_map.mpr ⟨k, List.mem_range.mpr hk, rfl⟩

/-- C5: for every metadata list, (a) when some `traceparent` entry has a
value of at least 55 characters, extraction returns the 32 characters at
offset 3 of such a value as the trace ID and the 16 characters at offset 36
as the parent span ID, with no further validation; (b) when every
`traceparent` value is shorter than 55 characters (in particular when the
header is absent), it returns a freshly generated non-empty 32-character
lowercase-hex trace ID and an empty parent span ID.  The operation is a
total function (it never fails). -/
theorem c5_extract_trace_context (md : List (List Char × List Char)) (rand : ℕ → ℕ) :
    ((∃ v, (traceparentKey, v) ∈ md ∧ 55 ≤ v.length) →
      ∃ v, (traceparentKey, v) ∈ md ∧ 55 ≤ v.length ∧
        extract_trace_context md rand = ((v.drop 3).take 32, (v.drop 36).take 16)) ∧
    ((∀ v, (traceparentKey, v) ∈ md → v.length < 55) →
      extract_trace_context md rand = (generate_trace_id rand 64, []) ∧
      (generate_trace_id rand 64).length = 32 ∧
      generate_trace_id rand 64 ≠ [] ∧
      ∀ c ∈ generate_trace_id rand 64, IsLowerHex c) := by
  constructor
  · intro h
    obtain ⟨v, hmem, hlen, heq⟩ := scanTraceparent_of_some_long h
    refine ⟨v, hmem, hlen, ?_⟩
    unfold extract_trace_context
    rw [heq ([], [])]
    have hlt : ((v.drop 3).take 32).length = 32 := by
      rw [List.length_take, List.length_drop]; omega
    have hne : ((v.drop 3).take 32) ≠ [] := by
      intro hcon; rw [hcon] at hlt; simp at hlt
    simp only [if_neg hne]
  · intro h
    have hscan := scanTraceparent_of_all_short h ([], [])
    have hlen : (generate_trace_id rand 64).length = 32 := by
      simp [generate_trace_id]
    refine ⟨?_, hlen, ?_, ?_⟩
    · unfold extract_trace_context
      rw [hscan]
      simp
    · intro hcon; rw [hcon] at hlen; simp at hlen
    · intro c hc
      simp only [generate_trace_id, List.mem_map, List.mem_range] at hc
      obtain ⟨i, _, rfl⟩ := hc
      exact hexChar_isLowerHex _ (Nat.mod_lt _ (by norm_num))

/-- Witness for C5: a metadata list carrying one 55-character `traceparent`
value exercises part (a); the empty metadata list exercises part (b). -/
theorem c5_extract_trace_context_witness :
    (∃ v, (traceparentKey, v) ∈ [(traceparentKey, List.replicate 55 'a')] ∧ 55 ≤ v.length ∧
      extract_trace_context [(traceparentKey, List.replicate 55 'a')] (fun _ => 0) =
        ((v.drop 3).take 32, (v.drop 36).take 16)) ∧
    (extract_trace_context [] (fun _ => 0) = (generate_trace_id (fun _ => 0) 64, []) ∧
      (generate_trace_id (fun _ => 0) 64).length = 32 ∧
      generate_trace_id (fun _ => 0) 64 ≠ [] ∧
      ∀ c ∈ generate_trace_id (fun _ => 0) 64, IsLowerHex c) :=
  ⟨(c5_extract_trace_context [(traceparentKey, List.replicate 55 'a')] (fun _ => 0)).1
      ⟨List.replicate 55 'a', List.mem_singleton.mpr rfl, by simp⟩,
    (c5_extract_trace_context [] (fun _ => 0)).2 (fun v hv => absurd hv (by simp))⟩

/-! ## Span and log data model (otlp_exporter.h, otlp_log_exporter.h) and the
pending batch (otlp_exporter.c lines 464-543, otlp_log_exporter.c lines
453-526) -/

/-- `otlp_span_t` from otlp_exporter.h.  Possibly-NULL C strings are
`Option (List Char)`; the `attributes` pointer/count pair is one list (the
code always guards on `attribute_count > 0 && attributes`, which for the
list model is just non-emptiness). -/
structure OtlpSpan where
  trace_id : Option (List Char)
  span_id : Option (List Char)
  parent_span_id : Option (List Char)
  name : Option (List Char)
  kind : ℕ
  start_time_nanos : ℕ
  end_time_nanos : ℕ
  status_code : ℕ
  status_message : Option (List Char)
  attributes : List (List Char × List Char)
  deriving DecidableEq

/-- `otlp_log_record_t` from otlp_log_exporter.h. -/
structure OtlpLogRecord where
  trace_id : Option (List Char)
  span_id : Option (List Char)
  severity : ℕ
  body : Option (List Char)
  timestamp_nanos : ℕ
  attributes : List (List Char × List Char)
  deriving DecidableEq

/-- `MAX_BATCH_SIZE` (64 in all three exporter sources). -/
def MAX_BATCH_SIZE : ℕ := 64

/-- The copy-on-enqueue step of `otlp_export_span` (otlp_exporter.c lines
476-494): NULL `trace_id`/`span_id`/`name` become `""`, `parent_span_id`
stays NULL when NULL, attributes are deep-copied, and `status_message` is
never copied (the `calloc` zero-fill leaves it NULL). -/
def copySpan (s : OtlpSpan) : OtlpSpan :=
  { trace_id := some (s.trace_id.getD [])
  , span_id := some (s.span_id.getD [])
  , parent_span_id := s.parent_span_id
  , name := some (s.name.getD [])
  , kind := s.kind
  , start_time_nanos := s.start_time_nanos
  , end_time_nanos := s.end_time_nanos
  , status_code := s.status_code
  , status_message := none
  , attributes := s.attributes }

/-- The copy-on-enqueue step of `otlp_export_log` (otlp_log_exporter.c lines
465-480): NULL `trace_id`/`span_id` stay NULL, a NULL body becomes `""`. -/
def copyLogRecord (r : OtlpLogRecord) : OtlpLogRecord :=
  { trace_id := r.trace_id
  , span_id := r.span_id
  , severity := r.severity
  , body := some (r.body.getD [])
  , timestamp_nanos := r.timestamp_nanos
  , attributes := r.attributes }

/-- The guarded enqueue of `otlp_export_span` on a non-NULL exporter and
span: reject with `-1` at capacity, else append a copy at index
`pending_count` (so enqueue order is list order). -/
def enqueueSpan (pending : List OtlpSpan) (s : OtlpSpan) : Int × List OtlpSpan :=
  if MAX_BATCH_SIZE ≤ pending.length then (-1, pending)
  else (0, pending ++ [copySpan s])

/-- Same for `otlp_export_log`. -/
def enqueueLog (pending : List OtlpLogRecord) (r : OtlpLogRecord) :
    Int × List OtlpLogRecord :=
  if MAX_BATCH_SIZE ≤ pending.length then (-1, pending)
  else (0, pending ++ [copyLogRecord r])

/-- `otlp_export_span(exporter, span)` including its NULL guard
(otlp_exporter.c lines 464-501).  The exporter is represented by its pending
batch; `none` models a NULL pointer. -/
def otlp_export_span (exporter : Option (List OtlpSpan)) (span : Option OtlpSpan) :
    Int × Option (List OtlpSpan) :=
  match exporter, span with
  | some pending, some s => ((enqueueSpan pending s).1, some (enqueueSpan pending s).2)
  | _, _ => (-1, exporter)

/-- `otlp_export_log(exporter, record)` including its NULL guard
(otlp_log_exporter.c lines 453-487). -/
def otlp_export_log (exporter : Option (List OtlpLogRecord))
    (record : Option OtlpLogRecord) : Int × Option (List OtlpLogRecord) :=
  match exporter, record with
  | some pending, some r => ((enqueueLog pending r).1, some (enqueueLog pending r).2)
  | _, _ => (-1, exporter)

/-- The drain step shared by `otlp_exporter_flush` (otlp_exporter.c lines
503-543) and the background loop `export_thread_func` (lines 364-415): when
anything is pending, take the whole batch in order (`batch[i] =
pending_spans[i]`) and leave the queue empty; exported batch first, new
pending state second. -/
def otlp_exporter_flush (pending : List OtlpSpan) : List OtlpSpan × List OtlpSpan :=
  if 0 < pending.length then (pending, []) else ([], pending)

/-- Enqueue a list of spans in order, collecting each enqueue's result. -/
def enqueueAllSpans (pending : List OtlpSpan) : List OtlpSpan → List Int × List OtlpSpan
  | [] => ([], pending)
  | s :: rest =>
    ((enqueueSpan pending s).1 :: (enqueueAllSpans (enqueueSpan pending s).2 rest).1,
      (enqueueAllSpans (enqueueSpan pending s).2 rest).2)

theorem enqueueAllSpans_under_capacity (l : List OtlpSpan) :
    ∀ pending : List OtlpSpan, pending.length + l.length ≤ MAX_BATCH_SIZE →
      enqueueAllSpans pending l = (List.replicate l.length 0, pending ++ l.map copySpan) := by
  induction l with
  | nil => intro pending _; simp [enqueueAllSpans]
  | cons s rest ih =>
    intro pending h
    have hlt : ¬ MAX_BATCH_SIZE ≤ pending.length := by
      simp only [List.length_cons] at h; omega
    have hstep : enqueueSpan pending s = (0, pending ++ [copySpan s]) := by
      simp [enqueueSpan, hlt]
    have hrec := ih (pending ++ [copySpan s])
      (by simp only [List.length_append, List.length_cons] at h ⊢; simp; omega)
    simp only [enqueueAllSpans, hstep, hrec, List.length_cons, List.replicate_succ,
      List.append_assoc, List.singleton_append, List.map_cons]

/-- C3: starting from an empty pending batch, enqueuing N ≤ 64 spans (whose
enqueue copies coincide with the originals) succeeds for every item, leaves
exactly those N items pending in enqueue order, and draining yields exactly
them in order with the batch left empty; when 64 items are pending, a 65th
enqueue returns the capacity-exceeded result `-1` and changes nothing. -/
theorem c3_batch_order_and_capacity (l : List OtlpSpan) (h64 : l.length ≤ 64)
    (hcp : ∀ s ∈ l, copySpan s = s) :
    (enqueueAllSpans [] l).1 = List.replicate l.length 0 ∧
    (enqueueAllSpans [] l).2 = l ∧
    otlp_exporter_flush (enqueueAllSpans [] l).2 = (l, []) ∧
    (l.length = 64 → ∀ s, enqueueSpan l s = (-1, l)) := by
  have hmap : l.map copySpan = l := by
    calc l.map copySpan = l.map id := List.map_congr_left hcp
    _ = l := List.map_id l
  have hall := enqueueAllSpans_under_capacity l [] (by simpa [MAX_BATCH_SIZE] using h64)
  rw [List.nil_append, hmap] at hall
  refine ⟨by rw [hall], by rw [hall], ?_, ?_⟩
  · rw [hall]
    cases l with
    | nil => simp [otlp_exporter_flush]
    | cons a t => simp [otlp_exporter_flush]
  · intro hfull s
    simp [enqueueSpan, MAX_BATCH_SIZE, hfull]

/-- Witness for C3 with two concrete spans. -/
theorem c3_batch_order_and_capacity_witness :
    (enqueueAllSpans []
        [⟨some [], some [], none, some ['a'], 2, 0, 1, 1, none, []⟩,
         ⟨some [], some [], none, some ['b'], 2, 1, 2, 1, none, []⟩]).1 =
      List.replicate 2 0 ∧
    (enqueueAllSpans []
        [⟨some [], some [], none, some ['a'], 2, 0, 1, 1, none, []⟩,
         ⟨some [], some [], none, some ['b'], 2, 1, 2, 1, none, []⟩]).2 =
      [⟨some [], some [], none, some ['a'], 2, 0, 1, 1, none, []⟩,
       ⟨some [], some [], none, some ['b'], 2, 1, 2, 1, none, []⟩] ∧
    otlp_exporter_flush
        (enqueueAllSpans []
          [⟨some [], some [], none, some ['a'], 2, 0, 1, 1, none, []⟩,
           ⟨some [], some [], none, some ['b'], 2, 1, 2, 1, none, []⟩]).2 =
      ([⟨some [], some [], none, some ['a'], 2, 0, 1, 1, none, []⟩,
        ⟨some [], some [], none, some ['b'], 2, 1, 2, 1, none, []⟩], []) ∧
    (([⟨some [], some [], none, some ['a'], 2, 0, 1, 1, none, []⟩,
       ⟨some [], some [], none, some ['b'], 2, 1, 2, 1, none, []⟩] :
        List OtlpSpan).length = 64 →
      ∀ s, enqueueSpan
        [⟨some [], some [], none, some ['a'], 2, 0, 1, 1, none, []⟩,
         ⟨some [], some [], none, some ['b'], 2, 1, 2, 1, none, []⟩] s =
        (-1, [⟨some [], some [], none, some ['a'], 2, 0, 1, 1, none, []⟩,
              ⟨some [], some [], none, some ['b'], 2, 1, 2, 1, none, []⟩])) :=
  c3_batch_order_and_capacity _ (by decide) (by decide)

/-! ## WireEncoder: per-record message assembly in `do_export`
(otlp_exporter.c lines 148-225, otlp_log_exporter.c lines 147-222) -/

/-- The byte buffer written by a `hex_to_bytes(t, buf, n)` call whose result
is ignored (as in both `do_export`s): on success the parsed bytes; on a
parse failure the C buffer contents are unspecified, which the model renders
as a zero placeholder (no theorem below depends on that branch). -/
def hexBytesOr (t : List Char) (n : ℕ) : List ℕ :=
  (hex_to_bytes t n).getD (List.replicate n 0)

/-- An OTLP wire `Span` as assembled by `do_export` in otlp_exporter.c:
identifier fields are byte buffers (`data`/`len` modelled as one list). -/
structure WireSpan where
  trace_id : List ℕ
  span_id : List ℕ
  parent_span_id : List ℕ
  name : List Char
  kind : ℕ
  start_time_unix_nano : ℕ
  end_time_unix_nano : ℕ
  attributes : List (List Char × List Char)
  status_code : ℕ
  status_message : List Char
  deriving DecidableEq

/-- An OTLP wire `LogRecord` as assembled by `do_export` in
otlp_log_exporter.c. -/
structure WireLogRecord where
  trace_id : List ℕ
  span_id : List ℕ
  time_unix_nano : ℕ
  severity_number : ℕ
  severity_text : List Char
  body : List Char
  attributes : List (List Char × List Char)
  deriving DecidableEq

/-- The severity-text switch of the log `do_export` (otlp_log_exporter.c
lines 181-189); the numeric levels are the `log_severity_t` values. -/
def severity_text_of (sev : ℕ) : List Char :=
  if sev = 1 then ['T','R','A','C','E']
  else if sev = 5 then ['D','E','B','U','G']
  else if sev = 9 then ['I','N','F','O']
  else if sev = 13 then ['W','A','R','N']
  else if sev = 17 then ['E','R','R','O','R']
  else if sev = 21 then ['F','A','T','A','L']
  else ['U','N','S','P','E','C','I','F','I','E','D']

/-- Per-span body of the trace `do_export` loop (otlp_exporter.c lines
148-225): a NULL-or-short trace ID (span ID) is encoded as 16 (8) ZERO
bytes, while a NULL-or-short parent span ID is encoded as a ZERO-LENGTH
field. -/
def encode_span (sp : OtlpSpan) : WireSpan :=
  { trace_id :=
      match sp.trace_id with
      | some t => if 32 ≤ t.length then hexBytesOr t 16 else List.replicate 16 0
      | none => List.replicate 16 0
  , span_id :=
      match sp.span_id with
      | some t => if 16 ≤ t.length then hexBytesOr t 8 else List.replicate 8 0
      | none => List.replicate 8 0
  , parent_span_id :=
      match sp.parent_span_id with
      | some t => if 16 ≤ t.length then hexBytesOr t 8 else []
      | none => []
  , name := sp.name.getD []
  , kind := sp.kind
  , start_time_unix_nano := sp.start_time_nanos
  , end_time_unix_nano := sp.end_time_nanos
  , attributes := sp.attributes
  , status_code := sp.status_code
  , status_message := sp.status_message.getD [] }

/-- Per-record body of the log `do_export` loop (otlp_log_exporter.c lines
147-222): a NULL-or-short trace ID (span ID) is encoded as a ZERO-LENGTH
byte field. -/
def encode_log_record (r : OtlpLogRecord) : WireLogRecord :=
  { trace_id :=
      match r.trace_id with
      | some t => if 32 ≤ t.length then hexBytesOr t 16 else []
      | none => []
  , span_id :=
      match r.span_id with
      | some t => if 16 ≤ t.length then hexBytesOr t 8 else []
      | none => []
  , time_unix_nano := r.timestamp_nanos
  , severity_number := r.severity
  , severity_text := severity_text_of r.severity
  , body := r.body.getD []
  , attributes := r.attributes }

/-- C7: a log record whose trace ID is NULL or shorter than 32 characters
(span ID NULL or shorter than 16) is encoded with a zero-length trace ID
(span ID) byte field, and a span whose parent span ID is NULL or shorter
than 16 characters is encoded with a zero-length parent span ID. -/
theorem c7_absent_ids_zero_length (r : OtlpLogRecord) (sp : OtlpSpan)
    (htr : ∀ t, r.trace_id = some t → t.length < 32)
    (hsp : ∀ t, r.span_id = some t → t.length < 16)
    (hpar : ∀ t, sp.parent_span_id = some t → t.length < 16) :
    (encode_log_record r).trace_id = [] ∧
    (encode_log_record r).span_id = [] ∧
    (encode_span sp).parent_span_id = [] := by
  refine ⟨?_, ?_, ?_⟩
  · cases h : r.trace_id with
    | none => simp [encode_log_record, h]
    | some t =>
      have hlt := htr t h
      simp [encode_log_record, h, if_neg (by omega : ¬ 32 ≤ t.length)]
  · cases h : r.span_id with
    | none => simp [encode_log_record, h]
    | some t =>
      have hlt := hsp t h
      simp [encode_log_record, h, if_neg (by omega : ¬ 16 ≤ t.length)]
  · cases h : sp.parent_span_id with
    | none => simp [encode_span, h]
    | some t =>
      have hlt := hpar t h
      simp [encode_span, h, if_neg (by omega : ¬ 16 ≤ t.length)]

/-- Witness for C7: a log record with NULL trace ID and a 1-character span
ID, and a span with a 3-character parent span ID. -/
theorem c7_absent_ids_zero_length_witness :
    (encode_log_record ⟨none, some ['a'], 9, some [], 0, []⟩).trace_id = [] ∧
    (encode_log_record ⟨none, some ['a'], 9, some [], 0, []⟩).span_id = [] ∧
    (encode_span ⟨some [], some [], some ['a','b','c'], some [], 2, 0, 1, 1, none,
      []⟩).parent_span_id = [] :=
  c7_absent_ids_zero_length ⟨none, some ['a'], 9, some [], 0, []⟩
    ⟨some [], some [], some ['a','b','c'], some [], 2, 0, 1, 1, none, []⟩
    (fun t h => nomatch h)
    (fun t h => by injection h with h'; rw [← h']; decide)
    (fun t h => by injection h with h'; rw [← h']; decide)

/-! ## Metrics data model and exporter (otlp_metrics_exporter.h,
otlp_metrics_exporter.c lines 101-303) -/

/-- `metric_type_t`. -/
inductive MetricType
  | counter
  | gauge
  | histogram
  deriving DecidableEq

/-- `metric_data_point_t`: the C `union { int64_t; double; }` is modelled as
two fields with the `is_double` discriminator selecting the live one. -/
structure MetricDataPoint where
  timestamp_nanos : ℕ
  int_value : ℤ
  double_value : ℚ
  is_double : Bool
  attributes : List (List Char × List Char)
  deriving DecidableEq

/-- `histogram_data_point_t`: the `double*` arrays with their shared
`bucket_count` size are each one optional list (`none` models a NULL
pointer; the bucket-count list's length is the `bucket_count` field). -/
structure HistogramDataPoint where
  timestamp_nanos : ℕ
  count : ℕ
  sum : ℚ
  bucket_counts : Option (List ℚ)
  explicit_bounds : Option (List ℚ)
  attributes : List (List Char × List Char)
  deriving DecidableEq

/-- `otlp_metric_t`. -/
structure OtlpMetric where
  name : List Char
  description : List Char
  unit : List Char
  type : MetricType
  data_points : List MetricDataPoint
  histogram_points : List HistogramDataPoint
  deriving DecidableEq

/-- Wire `NumberDataPoint` value: the explicit int/double discriminator
(`value_case`) of the OTLP encoding. -/
inductive WireNumberValue
  | asInt (i : ℤ)
  | asDouble (q : ℚ)
  deriving DecidableEq

/-- Wire `NumberDataPoint`. -/
structure WireNumberDataPoint where
  time_unix_nano : ℕ
  value : WireNumberValue
  attributes : List (List Char × List Char)
  deriving DecidableEq

/-- Wire `HistogramDataPoint`. -/
structure WireHistogramDataPoint where
  time_unix_nano : ℕ
  count : ℕ
  sum : ℚ
  bucket_counts : List ℕ
  explicit_bounds : List ℚ
  deriving DecidableEq

/-- Wire `Metric.data` one-of. -/
inductive WireMetricData
  | empty
  | sum (points : List WireNumberDataPoint)
  | gauge (points : List WireNumberDataPoint)
  | histogram (points : List WireHistogramDataPoint)
  deriving DecidableEq

/-- Wire `Metric`. -/
structure WireMetric where
  name : List Char
  description : List Char
  unit : List Char
  data : WireMetricData
  deriving DecidableEq

/-- The `(uint64_t)` cast applied to each `double` bucket count
(otlp_metrics_exporter.c line 285): truncation toward zero, modelled on the
defined-behavior range `0 ≤ q < 2^64`. -/
def doubleToUInt64 (q : ℚ) : ℕ := (⌊q⌋).toNat

/-- Counter (`Sum`) data-point conversion (otlp_metrics_exporter.c lines
174-215): value by discriminator, attributes copied when present. -/
def encode_sum_point (dp : MetricDataPoint) : WireNumberDataPoint :=
  { time_unix_nano := dp.timestamp_nanos
  , value := if dp.is_double then .asDouble dp.double_value else .asInt dp.int_value
  , attributes := dp.attributes }

/-- Gauge data-point conversion (otlp_metrics_exporter.c lines 233-249):
same value handling, but the gauge loop never copies attributes. -/
def encode_gauge_point (dp : MetricDataPoint) : WireNumberDataPoint :=
  { time_unix_nano := dp.timestamp_nanos
  , value := if dp.is_double then .asDouble dp.double_value else .asInt dp.int_value
  , attributes := [] }

/-- Histogram data-point conversion (otlp_metrics_exporter.c lines 269-295):
with `B = bucket_count > 0` and a non-NULL counts array, the `B` counts are
cast and copied and, when the bounds array is non-NULL, `n_explicit_bounds`
is set to `B - 1` over the provided bounds array (its first `B - 1`
entries); otherwise both wire arrays stay empty. -/
def encode_histogram_point (dp : HistogramDataPoint) : WireHistogramDataPoint :=
  { time_unix_nano := dp.timestamp_nanos
  , count := dp.count
  , sum := dp.sum
  , bucket_counts :=
      match dp.bucket_counts with
      | some cs => if 0 < cs.length then cs.map doubleToUInt64 else []
      | none => []
  , explicit_bounds :=
      match dp.bucket_counts, dp.explicit_bounds with
      | some cs, some bs => if 0 < cs.length then bs.take (cs.length - 1) else []
      | _, _ => [] }

/-- Per-metric conversion of `otlp_export_metrics` (otlp_metrics_exporter.c
lines 150-303): the three type branches each also require a non-empty point
list, otherwise the metric's data one-of stays unset. -/
def encode_metric (m : OtlpMetric) : WireMetric :=
  { name := m.name
  , description := m.description
  , unit := m.unit
  , data :=
      if m.type = MetricType.counter ∧ 0 < m.data_points.length then
        .sum (m.data_points.map encode_sum_point)
      else if m.type = MetricType.gauge ∧ 0 < m.data_points.length then
        .gauge (m.data_points.map encode_gauge_point)
      else if m.type = MetricType.histogram ∧ 0 < m.histogram_points.length then
        .histogram (m.histogram_points.map encode_histogram_point)
      else .empty }

/-- `otlp_export_metrics(exporter, metrics, count)` (otlp_metrics_exporter.c
lines 101-423): NULL exporter, NULL metrics array, or zero count is rejected
with `-1` before anything is built; otherwise the first `count` metrics are
converted into the wire request.  The network call itself is outside the
model; its success path is represented by result `0` together with the
built wire metrics. -/
def otlp_export_metrics (exporter : Option Unit) (metrics : Option (List OtlpMetric))
    (count : ℕ) : Int × List WireMetric :=
  match exporter, metrics with
  | some _, some ms =>
    if count = 0 then (-1, [])
    else (0, (ms.take count).map encode_metric)
  | _, _ => (-1, [])

/-- C8: a histogram data point with `B > 0` bucket counts and a non-NULL
explicit-bounds array is encoded with exactly `B` bucket counts equal to the
provided counts and exactly `B - 1` boundaries taken unmodified from the
provided bounds array, with no validation or resampling of the relation
between them; and a histogram-typed metric's data points are exactly the
pointwise conversions. -/
theorem c8_histogram_encoding (m : OtlpMetric) (dp : HistogramDataPoint)
    (cs bs : List ℚ)
    (hm : m.type = MetricType.histogram) (hdp : dp ∈ m.histogram_points)
    (hc : dp.bucket_counts = some cs) (hb : dp.explicit_bounds = some bs)
    (hpos : 0 < cs.length) (hbs : cs.length - 1 ≤ bs.length)
    (hnat : ∀ q ∈ cs, ∃ n : ℕ, q = (n : ℚ)) :
    (encode_metric m).data = .histogram (m.histogram_points.map encode_histogram_point) ∧
    (encode_histogram_point dp).bucket_counts.map (fun n : ℕ => (n : ℚ)) = cs ∧
    (encode_histogram_point dp).bucket_counts.length = cs.length ∧
    (encode_histogram_point dp).explicit_bounds = bs.take (cs.length - 1) ∧
    (encode_histogram_point dp).explicit_bounds.length = cs.length - 1 := by
  have hne : 0 < m.histogram_points.length := List.length_pos.mpr (by
    intro hnil; rw [hnil] at hdp; simp at hdp)
  have hcounts : (encode_histogram_point dp).bucket_counts = cs.map doubleToUInt64 := by
    simp [encode_histogram_point, hc, hpos]
  have hbounds : (encode_histogram_point dp).explicit_bounds = bs.take (cs.length - 1) := by
    simp [encode_histogram_point, hc, hb, hpos]
  refine ⟨?_, ?_, ?_, hbounds, ?_⟩
  · simp [encode_metric, hm, hne]
  · rw [hcounts, List.map_map]
    calc cs.map ((fun n : ℕ => (n : ℚ)) ∘ doubleToUInt64) = cs.map id := by
          refine List.map_congr_left (fun q hq => ?_)
          obtain ⟨n, rfl⟩ := hnat q hq
          simp [doubleToUInt64, Function.comp]
    _ = cs := List.map_id cs
  · rw [hcounts, List.length_map]
  · rw [hbounds, List.length_take]; omega

/-- Witness for C8 with a two-bucket histogram point (counts 3 and 4, one
boundary 10). -/
theorem c8_histogram_encoding_witness :
    (encode_metric ⟨['m'], [], [], MetricType.histogram, [],
        [⟨0, 7, 12, some [(3 : ℚ), 4], some [(10 : ℚ)], []⟩]⟩).data =
      WireMetricData.histogram
        [encode_histogram_point ⟨0, 7, 12, some [(3 : ℚ), 4], some [(10 : ℚ)], []⟩] ∧
    (encode_histogram_point
        ⟨0, 7, 12, some [(3 : ℚ), 4], some [(10 : ℚ)], []⟩).bucket_counts.map
      (fun n : ℕ => (n : ℚ)) = [(3 : ℚ), 4] ∧
    (encode_histogram_point
        ⟨0, 7, 12, some [(3 : ℚ), 4], some [(10 : ℚ)], []⟩).bucket_counts.length = 2 ∧
    (encode_histogram_point
        ⟨0, 7, 12, some [(3 : ℚ), 4], some [(10 : ℚ)], []⟩).explicit_bounds =
      [(10 : ℚ)].take 1 ∧
    (encode_histogram_point
        ⟨0, 7, 12, some [(3 : ℚ), 4], some [(10 : ℚ)], []⟩).explicit_bounds.length = 1 := by
  have h := c8_histogram_encoding
    ⟨['m'], [], [], MetricType.histogram, [],
      [⟨0, 7, 12, some [(3 : ℚ), 4], some [(10 : ℚ)], []⟩]⟩
    ⟨0, 7, 12, some [(3 : ℚ), 4], some [(10 : ℚ)], []⟩
    [(3 : ℚ), 4] [(10 : ℚ)] rfl (List.mem_singleton.mpr rfl) rfl rfl
    (by decide) (by decide)
    (by
      intro q hq
      rcases List.mem_cons.mp hq with rfl | hq'
      · exact ⟨3, by norm_num⟩
      · rcases List.mem_singleton.mp hq' with rfl
        exact ⟨4, by norm_num⟩)
  simpa using h

/-- C10: `otlp_export_span` and `otlp_export_log` return `-1` and leave the
pending batch unchanged on a NULL exporter or item; `otlp_export_metrics`
returns `-1` on a NULL exporter, NULL metrics array, or zero count. -/
theorem c10_null_guards :
    (∀ (e : Option (List OtlpSpan)) (s : Option OtlpSpan),
      e = none ∨ s = none → otlp_export_span e s = (-1, e)) ∧
    (∀ (e : Option (List OtlpLogRecord)) (r : Option OtlpLogRecord),
      e = none ∨ r = none → otlp_export_log e r = (-1, e)) ∧
    (∀ (e : Option Unit) (ms : Option (List OtlpMetric)) (count : ℕ),
      e = none ∨ ms = none ∨ count = 0 →
        (otlp_export_metrics e ms count).1 = -1) := by
  refine ⟨?_, ?_, ?_⟩
  · rintro e s (rfl | rfl)
    · rfl
    · cases e <;> rfl
  · rintro e r (rfl | rfl)
    · rfl
    · cases e <;> rfl
  · rintro e ms count (rfl | rfl | rfl)
    · rfl
    · cases e <;> rfl
    · cases e <;> cases ms <;> simp [otlp_export_metrics]

/-- Witness for C10 at NULL item, NULL exporter, and zero count. -/
theorem c10_null_guards_witness :
    otlp_export_span (some []) none = (-1, some []) ∧
    otlp_export_log none (some ⟨none, none, 9, some [], 0, []⟩) = (-1, none) ∧
    (otlp_export_metrics (some ()) (some []) 0).1 = -1 :=
  ⟨c10_null_guards.1 (some []) none (Or.inr rfl),
    c10_null_guards.2.1 none (some ⟨none, none, 9, some [], 0, []⟩) (Or.inl rfl),
    c10_null_guards.2.2 (some ()) (some []) 0 (Or.inr (Or.inr rfl))⟩

/-! ## Metrics accumulator and the 10-second export tick (main.c lines
44-48, 92-97 and 100-159) -/

/-- The shared metrics accumulator guarded by `g_metrics_mutex`
(`g_request_count`, `g_total_duration_ms`). -/
structure MetricsAccum where
  request_count : ℕ
  total_duration_ms : ℚ
  deriving DecidableEq

/-- `record_request_metrics(duration_ms)` (main.c lines 92-97): increment
the request count and add the duration, under the metrics lock. -/
def record_request_metrics (st : MetricsAccum) (duration_ms : ℚ) : MetricsAccum :=
  { request_count := st.request_count + 1
  , total_duration_ms := st.total_duration_ms + duration_ms }

/-- One iteration body of `metrics_export_thread` (main.c lines 108-155):
read both accumulator fields under the metrics lock (the code takes the
snapshot but writes nothing back, so the accumulator is returned as it
was), skip the export when the snapshot count is zero, and otherwise build
one counter metric with a single integer data point (the request count) and
one gauge metric with a single double data point (total duration divided by
request count).  Returns the metrics handed to `otlp_export_metrics`
together with the post-tick accumulator. -/
def metrics_tick (st : MetricsAccum) (timestamp_nanos : ℕ) :
    List OtlpMetric × MetricsAccum :=
  let request_count := st.request_count
  let total_duration := st.total_duration_ms
  if request_count = 0 then ([], st)
  else
    ([ { name := ['g','r','p','c','a','r','c','h','_','s','e','r','v','i','c','e','_',
                  'f','_','r','e','q','u','e','s','t','s','_','t','o','t','a','l']
       , description := []
       , unit := ['1']
       , type := MetricType.counter
       , data_points := [{ timestamp_nanos := timestamp_nanos
                         , int_value := (request_count : ℤ)
                         , double_value := 0
                         , is_double := false
                         , attributes := [] }]
       , histogram_points := [] }
     , { name := ['g','r','p','c','a','r','c','h','_','s','e','r','v','i','c','e','_',
                  'f','_','r','e','q','u','e','s','t','_','d','u','r','a','t','i','o',
                  'n','_','m','s']
       , description := []
       , unit := ['m','s']
       , type := MetricType.gauge
       , data_points := [{ timestamp_nanos := timestamp_nanos
                         , int_value := 0
                         , double_value :=
                             if 0 < request_count then
                               total_duration / (request_count : ℚ)
                             else 0
                         , is_double := true
                         , attributes := [] }]
       , histogram_points := [] } ], st)

/-- C1 divergence exhibit: at the accumulator state (1 request, 5.0 ms
total) a tick emits exactly the one counter data point (value 1) and one
gauge data point (value 5.0) the claim describes, but the accumulator is
NOT reset: it still holds (1, 5.0) afterwards (the code's own comment says
"Get and reset metrics atomically" yet nothing is written back), so the
very next tick — with zero new requests recorded — emits again instead of
emitting nothing.  The zero-state tick emits nothing, as claimed. -/
theorem c1_tick_not_reset :
    (metrics_tick ⟨0, 0⟩ 0).1 = [] ∧ (metrics_tick ⟨0, 0⟩ 0).2 = ⟨0, 0⟩ ∧
    ((metrics_tick ⟨1, 5⟩ 0).1.map (fun m => m.type)) =
      [MetricType.counter, MetricType.gauge] ∧
    ((metrics_tick ⟨1, 5⟩ 0).1.map (fun m => m.data_points.map
      (fun dp => (dp.is_double, dp.int_value, dp.double_value)))) =
      [[(false, 1, 0)], [(true, 0, 5)]] ∧
    (metrics_tick ⟨1, 5⟩ 0).2 = ⟨1, 5⟩ ∧
    (metrics_tick ⟨1, 5⟩ 0).2 ≠ ⟨0, 0⟩ ∧
    (metrics_tick (metrics_tick ⟨1, 5⟩ 0).2 10).1 ≠ [] := by
  refine ⟨rfl, rfl, rfl, ?_, rfl, by decide, by decide⟩
  norm_num [metrics_tick]

/-! ## RpcServer dispatch (main.c lines 481-544): one call-arrived event of
`run_server` -/

/-- `strstr`-style substring test: does `hay` contain `needle` as a
contiguous substring (true for the empty needle, as for `strstr`)? -/
def hasSubstr (needle : List Char) : List Char → Bool
  | [] => needle.isEmpty
  | c :: t => needle.isPrefixOf (c :: t) || hasSubstr needle t

/-- The method-name pattern `"FetchLegacyData"` dispatched by `run_server`. -/
def fetchLegacyDataStr : List Char :=
  ['F','e','t','c','h','L','e','g','a','c','y','D','a','t','a']

/-- `GRPC_STATUS_OK`. -/
def GRPC_STATUS_OK : ℕ := 0

/-- `GRPC_STATUS_UNIMPLEMENTED`. -/
def GRPC_STATUS_UNIMPLEMENTED : ℕ := 12

/-- Outcome of one call-arrived event in `run_server`. -/
structure ServerStep where
  rearmed_before_processing : Bool
  dispatched_to_handler : Bool
  status : ℕ
  deriving DecidableEq

/-- The call-arrived branch of the `run_server` loop (main.c lines 489-544):
the next `request_call` is issued BEFORE the method check; then a method
name containing `"FetchLegacyData"` (per `strstr`) is dispatched to
`handle_fetch_legacy_data`, which ends the call with `GRPC_STATUS_OK`,
while any other method name gets `GRPC_STATUS_UNIMPLEMENTED` with no
dispatch. -/
def run_server_on_call (method : List Char) : ServerStep :=
  { rearmed_before_processing := true
  , dispatched_to_handler := hasSubstr fetchLegacyDataStr method
  , status :=
      if hasSubstr fetchLegacyDataStr method then GRPC_STATUS_OK
      else GRPC_STATUS_UNIMPLEMENTED }

theorem hasSubstr_iff (needle hay : List Char) :
    hasSubstr needle hay = true ↔ ∃ p s, hay = p ++ needle ++ s := by
  induction hay with
  | nil =>
    simp only [hasSubstr, List.isEmpty_iff]
    constructor
    · intro h; exact ⟨[], [], by simp [h]⟩
    · rintro ⟨p, s, hps⟩
      rcases List.append_eq_nil.mp (List.append_eq_nil.mp hps.symm).1 with ⟨_, h2⟩
      exact h2
  | cons c t ih =>
    simp only [hasSubstr, Bool.or_eq_true, List.isPrefixOf_iff_prefix, ih]
    constructor
    · rintro (⟨s, hs⟩ | ⟨p, s, hps⟩)
      · exact ⟨[], s, by simp [hs]⟩
      · exact ⟨c :: p, s, by simp [hps]⟩
    · rintro ⟨p, s, hps⟩
      cases p with
      | nil =>
        left
        exact ⟨s, by simpa using hps.symm⟩
      | cons p0 pt =>
        right
        have h' : c = p0 ∧ t = pt ++ (needle ++ s) := by simpa using hps
        exact ⟨pt, s, by simp [h'.2]⟩

/-- C6: an inbound call whose method name is unregistered — i.e. not
matched to the one registered handler, whose `strstr`-based matching rule
is made precise by C9 — terminates with `GRPC_STATUS_UNIMPLEMENTED`, no
business dispatch happens, and the next request-call has already been
re-armed before the method was even examined, so the server stays live for
the next inbound call. -/
theorem c6_unknown_method_unimplemented (method : List Char)
    (h : ¬ ∃ p s, method = p ++ fetchLegacyDataStr ++ s) :
    (run_server_on_call method).status = GRPC_STATUS_UNIMPLEMENTED ∧
    (run_server_on_call method).dispatched_to_handler = false ∧
    (run_server_on_call method).rearmed_before_processing = true := by
  have hsub : hasSubstr fetchLegacyDataStr method = false := by
    rw [← Bool.not_eq_true, hasSubstr_iff]
    exact h
  exact ⟨by simp [run_server_on_call, hsub], by simp [run_server_on_call, hsub], rfl⟩

/-- Witness for C6 at the method name `"/grpcarch.ServiceF/Other"`. -/
theorem c6_unknown_method_unimplemented_witness :
    (run_server_on_call
        ['/','g','r','p','c','a','r','c','h','.','S','e','r','v','i','c','e','F',
         '/','O','t','h','e','r']).status = GRPC_STATUS_UNIMPLEMENTED ∧
    (run_server_on_call
        ['/','g','r','p','c','a','r','c','h','.','S','e','r','v','i','c','e','F',
         '/','O','t','h','e','r']).dispatched_to_handler = false ∧
    (run_server_on_call
        ['/','g','r','p','c','a','r','c','h','.','S','e','r','v','i','c','e','F',
         '/','O','t','h','e','r']).rearmed_before_processing = true :=
  c6_unknown_method_unimplemented _
    (by
      rw [← hasSubstr_iff]
      decide)

/-- C9: a call is dispatched to the FetchLegacyData handler exactly when its
method name contains `"FetchLegacyData"` as a contiguous substring —
containment, not equality — so a method name with extra surrounding
characters around the substring is dispatched (with the handler's
`GRPC_STATUS_OK`) rather than receiving `GRPC_STATUS_UNIMPLEMENTED`. -/
theorem c9_substring_dispatch (method : List Char) :
    ((run_server_on_call method).dispatched_to_handler = true ↔
      ∃ p s, method = p ++ fetchLegacyDataStr ++ s) ∧
    ((run_server_on_call method).dispatched_to_handler = true →
      (run_server_on_call method).status = GRPC_STATUS_OK) := by
  constructor
  · rw [show (run_server_on_call method).dispatched_to_handler =
        hasSubstr fetchLegacyDataStr method from rfl]
    exact hasSubstr_iff _ _
  · intro h
    have : hasSubstr fetchLegacyDataStr method = true := h
    simp [run_server_on_call, this]

/-- Witness for C9 at the name `"aFetchLegacyDatab"`, which contains the
pattern with extra surrounding characters and is therefore dispatched with
the handler's OK status. -/
theorem c9_substring_dispatch_witness :
    (run_server_on_call
        ['a','F','e','t','c','h','L','e','g','a','c','y','D','a','t','a','b']
      ).dispatched_to_handler = true ∧
    (run_server_on_call
        ['a','F','e','t','c','h','L','e','g','a','c','y','D','a','t','a','b']
      ).status = GRPC_STATUS_OK :=
  have hd := (c9_substring_dispatch
      ['a','F','e','t','c','h','L','e','g','a','c','y','D','a','t','a','b']).1.mpr
    ⟨['a'], ['b'], rfl⟩
  ⟨hd, (c9_substring_dispatch
      ['a','F','e','t','c','h','L','e','g','a','c','y','D','a','t','a','b']).2 hd⟩

end ServiceF
